import Mathlib

/-!
Verification of the NinjaOne MCP server core (credential cache, endpoint
auto-detection, HTTP gateway session registry, upstream response handling,
and maintenance-tool validation) against its design specification.

The definitions below are a shallow embedding of the TypeScript sources:
  - class NinjaOneAPI (src/ninja-api.ts): endpoint/token state and the
    methods getAccessToken, requestToken (abstracted as an oracle),
    normalizeBaseUrl, getCandidateBaseUrls, makeRequest response handling,
    setRegion, setBaseUrl, setDeviceMaintenance.
  - createHttpServer (transport/http.ts): the /mcp route dispatch over the
    session-id -> transport map.
  - the set_device_maintenance branch of ToolHandler.callAPIMethod.

Network effects are made explicit: token requests are parameterized by an
oracle giving each endpoint's response, and every operation reports the
list of token-request URLs it issued (empty when the code path performs no
network call).  JavaScript numbers are modelled as exact rationals, with
NaN and the infinities as separate cases where the code tests typeof and
Number.isFinite.  Times are integers (epoch milliseconds).
-/

namespace NinjaOne

/-- Response of a successful OAuth token request (requestToken's JSON). -/
structure TokenResp where
  access_token : String
  expires_in : Int
  deriving DecidableEq

/-- The mutable instance fields of class NinjaOneAPI. -/
structure ApiState where
  baseUrl : Option String
  baseUrlExplicit : Bool
  accessToken : Option String
  tokenExpiry : Option Int
  isConfigured : Bool
  clientId : String
  clientSecret : String
  deriving DecidableEq

/-- NinjaOneAPI.REGION_MAP. -/
def REGION_MAP : List (String × String) :=
  [("us", "https://app.ninjarmm.com"),
   ("us2", "https://us2.ninjarmm.com"),
   ("eu", "https://eu.ninjarmm.com"),
   ("ca", "https://ca.ninjarmm.com"),
   ("oc", "https://oc.ninjarmm.com")]

/-- Object.values(REGION_MAP), as used by setBaseUrl. -/
def knownUrls : List String := REGION_MAP.map Prod.snd

/-- NinjaOneAPI.DEFAULT_CANDIDATES. -/
def DEFAULT_CANDIDATES : List String :=
  ["https://app.ninjarmm.com",
   "https://us2.ninjarmm.com",
   "https://eu.ninjarmm.com",
   "https://ca.ninjarmm.com",
   "https://oc.ninjarmm.com"]

/-- String.prototype.toLowerCase for the ASCII range (the region keys and
URL schemes compared by the source are ASCII). -/
def strLower (s : String) : String := String.mk (s.data.map Char.toLower)

/-- String.prototype.toUpperCase for the ASCII range. -/
def strUpper (s : String) : String := String.mk (s.data.map Char.toUpper)

/-- Case-insensitive prefix test: does s start with p, comparing
lower-cased characters? -/
def lowerStartsWith (s p : String) : Bool :=
  decide ((s.data.map Char.toLower).take p.data.length = p.data)

/-- String.prototype.trim (whitespace at both ends removed). -/
def strTrim (s : String) : String :=
  String.mk
    (((s.data.dropWhile Char.isWhitespace).reverse.dropWhile Char.isWhitespace).reverse)

/-- normalizeBaseUrl: prepend https:// unless the URL already starts with
http:// or https:// (case-insensitively, mirroring the /^https?:\/\//i test). -/
def normalizeBaseUrl (url : String) : String :=
  if lowerStartsWith url "http://" || lowerStartsWith url "https://" then url
  else "https://" ++ url

/-- A character matched by the regex class [\w-] (ASCII word or hyphen). -/
def isWordOrDash (c : Char) : Bool :=
  c.isAlphanum || c = '_' || c = '-'

/-- ALLOWED_DOMAIN_PATTERN: the regex ^https://[\w-]+\.ninjarmm\.com$ .
The string must be literally https:// followed by a nonempty run of
word-or-hyphen characters followed by the literal suffix .ninjarmm.com . -/
def matchesAllowedDomain (s : String) : Bool :=
  let pre := "https://".data
  let suf := ".ninjarmm.com".data
  if s.data.take pre.length = pre then
    let rest := s.data.drop pre.length
    decide (suf.length + 1 ≤ rest.length) &&
      decide (rest.drop (rest.length - suf.length) = suf) &&
      (rest.take (rest.length - suf.length)).all isWordOrDash
  else
    false

/-- getCandidateBaseUrls: comma-separated override list from the
NINJA_BASE_URLS environment value, else the default candidates. -/
def getCandidateBaseUrls (envBaseUrls : Option String) : List String :=
  let fromEnv :=
    (((envBaseUrls.getD "").splitOn ",").map strTrim
      |>.filter (fun s => s ≠ "")
      |>.map normalizeBaseUrl)
  if fromEnv.length > 0 then fromEnv else DEFAULT_CANDIDATES

/-- The error thrown when the API is not configured. -/
def notConfiguredMsg : String :=
  "NinjaONE API not configured - NINJA_CLIENT_ID and NINJA_CLIENT_SECRET required"

/-- Array.prototype.join(", ") as used for the tried-candidates list. -/
def joinComma : List String → String
  | [] => ""
  | [x] => x
  | x :: y :: xs => x ++ ", " ++ joinComma (y :: xs)

/-- The error thrown when every candidate base URL failed (line 92). -/
def sweepFailMsg (tried : List String) : String :=
  "Failed to acquire OAuth token: no candidate base URL succeeded. Tried: " ++
    joinComma tried

/-- The truthy cache-validity test of line 71:
this.accessToken and this.tokenExpiry truthy, and now strictly below
tokenExpiry - 300000 (the five-minute refresh skew). -/
def tokenCacheFresh (st : ApiState) (now : Int) : Bool :=
  match st.accessToken, st.tokenExpiry with
  | some t, some e => decide (t ≠ "" ∧ e ≠ 0 ∧ now < e - 300000)
  | _, _ => false

/-- Outcome of one getAccessToken call: the returned token or thrown error,
the instance state after the call, and the base URLs to which token
requests were issued, in order (empty means no network call). -/
structure GetTokenResult where
  result : Except String String
  state : ApiState
  requests : List String

/-- A token-request oracle: the outcome requestToken would produce for a
given base URL, client id and client secret (an error value is the thrown
failure, covering non-2xx responses and timeouts alike). -/
def TokenOracle : Type := String → String → String → Except String TokenResp

/-- The state updates of a successful token acquisition at base URL c
during the candidate sweep (lines 82-85): pin the endpoint and cache the
token with expiry now + expires_in * 1000. -/
def pinState (st : ApiState) (c : String) (tok : TokenResp) (now : Int) : ApiState :=
  { st with baseUrl := some c, baseUrlExplicit := true,
            accessToken := some tok.access_token,
            tokenExpiry := some (now + tok.expires_in * 1000) }

/-- The candidate sweep of lines 76-92: try each candidate in order,
pinning and returning on the first success; the accumulator carries the
candidates already tried (the tried array). -/
def sweepAux (oracle : TokenOracle) (now : Int) (st : ApiState) :
    List String → List String → GetTokenResult
  | tried, [] =>
      { result := Except.error (sweepFailMsg tried), state := st, requests := [] }
  | tried, cand :: rest =>
      match oracle cand st.clientId st.clientSecret with
      | Except.ok tok =>
          { result := Except.ok tok.access_token,
            state := pinState st cand tok now,
            requests := [cand] }
      | Except.error _ =>
          let r := sweepAux oracle now st (tried ++ [cand]) rest
          { r with requests := cand :: r.requests }

/-- getAccessToken (lines 66-100).  The candidates parameter is the value
of getCandidateBaseUrls(); now is Date.now() at the call. -/
def getAccessToken (st : ApiState) (oracle : TokenOracle)
    (candidates : List String) (now : Int) : GetTokenResult :=
  if st.isConfigured = false then
    { result := Except.error notConfiguredMsg, state := st, requests := [] }
  else if tokenCacheFresh st now then
    { result := Except.ok (st.accessToken.getD ""), state := st, requests := [] }
  else
    match st.baseUrl, st.baseUrlExplicit with
    | some b, true =>
        match oracle b st.clientId st.clientSecret with
        | Except.ok tok =>
            { result := Except.ok tok.access_token,
              state := { st with accessToken := some tok.access_token,
                                 tokenExpiry := some (now + tok.expires_in * 1000) },
              requests := [b] }
        | Except.error e =>
            { result := Except.error e, state := st, requests := [b] }
    | _, _ => sweepAux oracle now st [] candidates

/-- Outcome of setBaseUrl / setRegion: the thrown error or unit, the state
after the call, and the token requests issued (these methods never touch
the network, so the list is always empty by construction of the source). -/
structure SetUrlResult where
  result : Except String Unit
  state : ApiState
  requests : List String

/-- setBaseUrl (lines 214-226): validate the normalized URL against the
known region URLs and the allowed wildcard domain pattern; on success pin
the endpoint and clear the cached token and expiry; on failure throw
before any assignment. -/
def setBaseUrl (st : ApiState) (url : String) : SetUrlResult :=
  let normalized := normalizeBaseUrl url
  if knownUrls.contains normalized = false && matchesAllowedDomain normalized = false then
    { result := Except.error
        ("Invalid base URL: " ++ normalized ++
         ". URL must be a known NinjaRMM region or match https://<subdomain>.ninjarmm.com"),
      state := st, requests := [] }
  else
    { result := Except.ok (),
      state := { st with baseUrl := some normalized, baseUrlExplicit := true,
                         accessToken := none, tokenExpiry := none },
      requests := [] }

/-- setRegion (lines 207-212): lowercase the key, look it up in
REGION_MAP, throw on a miss, else delegate to setBaseUrl. -/
def setRegion (st : ApiState) (region : String) : SetUrlResult :=
  match REGION_MAP.lookup (strLower region) with
  | none => { result := Except.error ("Unknown region: " ++ region),
              state := st, requests := [] }
  | some mapped => setBaseUrl st mapped

/-! Upstream response handling: the tail of makeRequest (lines 181-199). -/

/-- Result of processing an upstream HTTP response: the canonical success
marker (the object with success set to true), a parsed JSON value, or the
thrown API-request-failed error. -/
inductive ApiResult (α : Type) where
  | successMarker
  | parsed (v : α)
  | failed (msg : String)
  deriving DecidableEq

/-- The response-handling tail of makeRequest (lines 181-199),
parameterized over the JSON parser (JSON.parse returning none models a
thrown SyntaxError).  status is response.status; response.ok is
200 <= status < 300. -/
def handleResponse {α : Type} (parse : String → Option α)
    (method : String) (status : Nat) (statusText : String)
    (bodyText : String) : ApiResult α :=
  if ¬ (200 ≤ status ∧ status < 300) then
    ApiResult.failed
      ("API request failed: " ++ toString status ++ " " ++ statusText ++
       " - " ++ bodyText)
  else if method = "DELETE" ∧ status = 204 then
    ApiResult.successMarker
  else if (strTrim bodyText).length = 0 then
    ApiResult.successMarker
  else
    match parse bodyText with
    | some v => ApiResult.parsed v
    | none => ApiResult.successMarker

/-! The HTTP gateway: the /mcp route of createHttpServer
(transport/http.ts, lines 73-142).  Sessions are the keys of the
transports map; fresh session identifiers come from randomUUID, modelled
as a stream of identifiers indexed by how many have been generated. -/

/-- HTTP method of an inbound /mcp request. -/
inductive HttpMethod where
  | post
  | get
  | delete
  | otherMethod
  deriving DecidableEq

/-- Classification of a POST body after the parsing of lines 77-86:
empty or unparsable (rejected at line 84), an initialize request
(isInitializeRequest true), or any other parsed message. -/
inductive BodyKind where
  | emptyOrBad
  | initMsg
  | regular
  deriving DecidableEq

/-- Gateway state: the keys of the transports map and the number of
session identifiers generated so far. -/
structure GwState where
  sessions : List String
  nextId : Nat
  deriving DecidableEq

/-- Observable outcome of one /mcp request. -/
inductive GwOutcome where
  | badRequestBody
  | invalidSession
  | created (sid : String)
  | delegated (sid : String)
  | closedSession (sid : String)
  | methodNotAllowed
  deriving DecidableEq

/-- One inbound /mcp request: method, the mcp-session-id header, and the
body classification (only consulted for POST). -/
structure GwEvent where
  method : HttpMethod
  sid : Option String
  body : BodyKind
  deriving DecidableEq

/-- The /mcp dispatch (lines 73-142).  uuid is the randomUUID stream:
the n-th generated session identifier is uuid n.  POST with an empty or
unparsable body is rejected; POST of an initialize request always creates
and registers a fresh session, ignoring any supplied session header;
every other POST, GET and DELETE requires a known session identifier;
DELETE removes the session after delegating to it. -/
def handleMcp (uuid : Nat → String) (st : GwState) (method : HttpMethod)
    (sid : Option String) (body : BodyKind) : GwOutcome × GwState :=
  match method with
  | HttpMethod.post =>
      match body with
      | BodyKind.emptyOrBad => (GwOutcome.badRequestBody, st)
      | BodyKind.initMsg =>
          let newSid := uuid st.nextId
          (GwOutcome.created newSid,
           { sessions := st.sessions ++ [newSid], nextId := st.nextId + 1 })
      | BodyKind.regular =>
          match sid with
          | none => (GwOutcome.invalidSession, st)
          | some s =>
              if s ∈ st.sessions then (GwOutcome.delegated s, st)
              else (GwOutcome.invalidSession, st)
  | HttpMethod.get =>
      match sid with
      | none => (GwOutcome.invalidSession, st)
      | some s =>
          if s ∈ st.sessions then (GwOutcome.delegated s, st)
          else (GwOutcome.invalidSession, st)
  | HttpMethod.delete =>
      match sid with
      | none => (GwOutcome.invalidSession, st)
      | some s =>
          if s ∈ st.sessions then
            (GwOutcome.closedSession s,
             { sessions := st.sessions.filter (fun x => x ≠ s), nextId := st.nextId })
          else (GwOutcome.invalidSession, st)
  | HttpMethod.otherMethod => (GwOutcome.methodNotAllowed, st)

/-- Run a sequence of /mcp requests, collecting the outcomes. -/
def runEvents (uuid : Nat → String) (st : GwState) :
    List GwEvent → List GwOutcome × GwState
  | [] => ([], st)
  | e :: rest =>
      let r := handleMcp uuid st e.method e.sid e.body
      let rr := runEvents uuid r.2 rest
      (r.1 :: rr.1, rr.2)

/-! The set_device_maintenance tool: the validation branch of
ToolHandler.callAPIMethod and NinjaOneAPI.setDeviceMaintenance
(ninja-api.ts lines 268-300).  JavaScript numbers are exact rationals
plus NaN and the infinities; other JavaScript values only matter through
typeof, so they collapse to str and otherJs. -/

/-- A JavaScript argument value, as discriminated by the tool handler. -/
inductive JsVal where
  | nan
  | posInf
  | negInf
  | num (q : ℚ)
  | str (s : String)
  | otherJs
  deriving DecidableEq

/-- typeof x === 'number' (NaN and the infinities are numbers). -/
def isNumberType : JsVal → Bool
  | JsVal.nan => true
  | JsVal.posInf => true
  | JsVal.negInf => true
  | JsVal.num _ => true
  | _ => false

/-- typeof unitRaw === 'string' ? unitRaw.toUpperCase() : '' . -/
def jsUnitUpper : JsVal → String
  | JsVal.str s => strUpper s
  | _ => ""

/-- The MAINTENANCE_UNIT_SECONDS record; none models the absence of the
own-property (the hasOwnProperty check of line 1090). -/
def MAINTENANCE_UNIT_SECONDS : String → Option Int := fun u =>
  if u = "MINUTES" then some 60
  else if u = "HOURS" then some (60 * 60)
  else if u = "DAYS" then some (24 * 60 * 60)
  else if u = "WEEKS" then some (7 * 24 * 60 * 60)
  else none

/-- Math.round for a positive JavaScript number: half-up rounding. -/
def roundJs (q : ℚ) : Int := ⌊q + 1 / 2⌋

/-- The MaintenanceWindowSelection union type of ninja-api.ts. -/
inductive MaintenanceWindowSelection where
  | permanentSel
  | windowSel (value : ℚ) (unit : String) (seconds : Int)
  deriving DecidableEq

/-- args.duration as seen by the handler: null/undefined/non-object, or
an object with its permanent (=== true), value and unit properties. -/
inductive DurationArg where
  | notObject
  | obj (permanentTrue : Bool) (value : JsVal) (unit : JsVal)
  deriving DecidableEq

/-- The upstream call issued by setDeviceMaintenance: a DELETE of the
device's maintenance window, or a PUT of a new window (body fields:
disabledFeatures, start, optional end, reasonMessage). -/
inductive DeviceMaintenanceCall where
  | deleteMaintenance (id : JsVal)
  | putMaintenance (id : JsVal) (features : List String) (start : Int)
      (endAt : Option Int) (reasonMessage : String)
  deriving DecidableEq

/-- The reasonMessage of lines 285-287. -/
def maintenanceReason : Option MaintenanceWindowSelection → String
  | some MaintenanceWindowSelection.permanentSel =>
      "Maintenance mode enabled via API (permanent)"
  | some (MaintenanceWindowSelection.windowSel v u _) =>
      "Maintenance mode enabled via API for " ++ toString v ++ " " ++ strLower u
  | none => "Maintenance mode enabled via API (permanent)"

/-- NinjaOneAPI.setDeviceMaintenance (lines 268-300).  now is Date.now();
start is Math.floor((now + 5000) / 1000). -/
def setDeviceMaintenance (id : JsVal) (mode : String)
    (duration : Option MaintenanceWindowSelection) (now : Int) :
    Except String DeviceMaintenanceCall :=
  if mode = "OFF" then
    Except.ok (DeviceMaintenanceCall.deleteMaintenance id)
  else
    match duration with
    | none => Except.error
        "Maintenance duration selection is required when enabling maintenance mode"
    | some sel =>
        let start := Int.fdiv (now + 5000) 1000
        let endAt : Option Int :=
          match sel with
          | MaintenanceWindowSelection.permanentSel => none
          | MaintenanceWindowSelection.windowSel _ _ seconds => some (start + seconds)
        Except.ok (DeviceMaintenanceCall.putMaintenance id
          ["ALERTS", "PATCHING", "AVSCANS", "TASKS"] start endAt
          (maintenanceReason (some sel)))

/-- Outcome of the set_device_maintenance tool dispatch: an InvalidParams
protocol error (thrown before any upstream call), an error thrown by the
API layer, or the upstream call that is issued. -/
inductive ToolOutcome where
  | invalidParams (msg : String)
  | apiError (msg : String)
  | apiCall (c : DeviceMaintenanceCall)
  deriving DecidableEq

/-- Wrap the API-layer result as a tool outcome. -/
def runMaintenanceApi (id : JsVal) (mode : String)
    (duration : Option MaintenanceWindowSelection) (now : Int) : ToolOutcome :=
  match setDeviceMaintenance id mode duration now with
  | Except.ok c => ToolOutcome.apiCall c
  | Except.error e => ToolOutcome.apiError e

/-- The set_device_maintenance case of ToolHandler.callAPIMethod
(lines 1061-1107): validate id, mode and, when enabling, the duration
object (positive finite value, known unit case-insensitively, rounded
window of at least 15 minutes) before issuing the upstream call. -/
def setDeviceMaintenanceTool (idArg modeArg : JsVal) (durationArg : DurationArg)
    (now : Int) : ToolOutcome :=
  if isNumberType idArg = false then
    ToolOutcome.invalidParams "Device ID must be a number"
  else if modeArg ≠ JsVal.str "ON" ∧ modeArg ≠ JsVal.str "OFF" then
    ToolOutcome.invalidParams "Maintenance mode must be ON or OFF"
  else if modeArg = JsVal.str "ON" then
    match durationArg with
    | DurationArg.notObject =>
        ToolOutcome.invalidParams
          "Duration details are required when enabling maintenance mode"
    | DurationArg.obj permanentTrue v u =>
        if permanentTrue then
          runMaintenanceApi idArg "ON" (some MaintenanceWindowSelection.permanentSel) now
        else
          match v with
          | JsVal.num q =>
              if q ≤ 0 then
                ToolOutcome.invalidParams "Duration value must be a positive number"
              else
                match MAINTENANCE_UNIT_SECONDS (jsUnitUpper u) with
                | none =>
                    ToolOutcome.invalidParams
                      "Duration unit must be one of MINUTES, HOURS, DAYS, or WEEKS"
                | some perUnit =>
                    let seconds := roundJs (q * (perUnit : ℚ))
                    if seconds < 15 * 60 then
                      ToolOutcome.invalidParams
                        "Maintenance windows must be at least 15 minutes long"
                    else
                      runMaintenanceApi idArg "ON"
                        (some (MaintenanceWindowSelection.windowSel q (jsUnitUpper u) seconds)) now
          | _ => ToolOutcome.invalidParams "Duration value must be a positive number"
  else
    runMaintenanceApi idArg "OFF" none now

/-! Interleaving semantics for concurrent getAccessToken calls.
getAccessToken is an async method whose only suspension points are the
awaited requestToken calls; everything between two awaits runs atomically
on the single JavaScript event loop.  A task is one in-flight
getAccessToken call, suspended (at most) at one awaited token request;
the scheduler picks which task runs to its next suspension point.  A
token request is logged at the moment the fetch is issued and resolves
when the owning task is next scheduled. -/

/-- One in-flight getAccessToken call: not yet started, suspended on an
awaited token request of the candidate sweep (tried is the tried array so
far, including the in-flight candidate), suspended on the explicit-path
token request, or completed. -/
inductive TaskPc where
  | ready
  | sweepAwait (current : String) (tried : List String) (rest : List String)
  | pinnedAwait (current : String)
  | finished (r : Except String String)

/-- A task step: the task state after running to the next suspension
point, the shared NinjaOneAPI state after the step, and the token
requests issued during the step. -/
structure TaskStep where
  pc : TaskPc
  shared : ApiState
  issued : List String

/-- Run a ready task through the synchronous prefix of getAccessToken
(lines 66-79): the configuration check, the cache check, and the choice
between the explicit path and the candidate sweep, up to issuing the
first awaited token request. -/
def taskStart (st : ApiState) (candidates : List String) (now : Int) : TaskStep :=
  if st.isConfigured = false then
    { pc := TaskPc.finished (Except.error notConfiguredMsg), shared := st, issued := [] }
  else if tokenCacheFresh st now then
    { pc := TaskPc.finished (Except.ok (st.accessToken.getD "")), shared := st, issued := [] }
  else
    match st.baseUrl, st.baseUrlExplicit with
    | some b, true => { pc := TaskPc.pinnedAwait b, shared := st, issued := [b] }
    | _, _ =>
        match candidates with
        | [] => { pc := TaskPc.finished (Except.error (sweepFailMsg [])),
                  shared := st, issued := [] }
        | c :: rest => { pc := TaskPc.sweepAwait c [c] rest, shared := st, issued := [c] }

/-- Resolve the awaited token request of a suspended task and run the
continuation to the next suspension point (lines 80-99). -/
def taskResume (oracle : TokenOracle) (now : Int) (st : ApiState) :
    TaskPc → TaskStep
  | TaskPc.sweepAwait current tried rest =>
      match oracle current st.clientId st.clientSecret with
      | Except.ok tok =>
          { pc := TaskPc.finished (Except.ok tok.access_token),
            shared := pinState st current tok now, issued := [] }
      | Except.error _ =>
          match rest with
          | [] => { pc := TaskPc.finished (Except.error (sweepFailMsg tried)),
                    shared := st, issued := [] }
          | c :: rest2 => { pc := TaskPc.sweepAwait c (tried ++ [c]) rest2,
                            shared := st, issued := [c] }
  | TaskPc.pinnedAwait b =>
      match oracle b st.clientId st.clientSecret with
      | Except.ok tok =>
          { pc := TaskPc.finished (Except.ok tok.access_token),
            shared := { st with accessToken := some tok.access_token,
                                tokenExpiry := some (now + tok.expires_in * 1000) },
            issued := [] }
      | Except.error e =>
          { pc := TaskPc.finished (Except.error e), shared := st, issued := [] }
  | pc => { pc := pc, shared := st, issued := [] }

/-- A system of concurrent getAccessToken calls: the shared instance
state, the per-task program counters, and the log of every token request
issued so far, in order. -/
structure ConcSys where
  shared : ApiState
  tasks : List TaskPc
  log : List String

/-- Schedule task i for one step (a no-op for absent or finished tasks). -/
def concStep (oracle : TokenOracle) (candidates : List String) (now : Int)
    (sys : ConcSys) (i : Nat) : ConcSys :=
  match sys.tasks[i]? with
  | none => sys
  | some TaskPc.ready =>
      let s := taskStart sys.shared candidates now
      { shared := s.shared, tasks := sys.tasks.set i s.pc, log := sys.log ++ s.issued }
  | some pc =>
      let s := taskResume oracle now sys.shared pc
      { shared := s.shared, tasks := sys.tasks.set i s.pc, log := sys.log ++ s.issued }

/-- Run a schedule (a list of task indices), one step per entry. -/
def concRun (oracle : TokenOracle) (candidates : List String) (now : Int)
    (sys : ConcSys) (schedule : List Nat) : ConcSys :=
  schedule.foldl (concStep oracle candidates now) sys

/-- Instance states reachable in a process: the constructor always leaves
accessToken and tokenExpiry null (lines 16-63), and afterwards the state
is only mutated by getAccessToken, setBaseUrl and setRegion. -/
inductive Reachable : ApiState → Prop where
  | ctor (st : ApiState) (h1 : st.accessToken = none) (h2 : st.tokenExpiry = none) :
      Reachable st
  | tokenCall (st : ApiState) (oracle : TokenOracle) (cands : List String) (now : Int) :
      Reachable st → Reachable (getAccessToken st oracle cands now).state
  | setUrlCall (st : ApiState) (url : String) :
      Reachable st → Reachable (setBaseUrl st url).state
  | setRegionCall (st : ApiState) (region : String) :
      Reachable st → Reachable (setRegion st region).state

/-- A configured instance with nothing cached and no pinned endpoint (the
constructor outcome when only the credentials are set). -/
def freshConfiguredState : ApiState :=
  { baseUrl := none, baseUrlExplicit := false, accessToken := none,
    tokenExpiry := none, isConfigured := true, clientId := "client-id",
    clientSecret := "client-secret" }

/-- An oracle granting every endpoint the same one-hour token. -/
def grantAllOracle : TokenOracle :=
  fun _ _ _ => Except.ok { access_token := "tok", expires_in := 3600 }

/-- An oracle refusing every token request. -/
def denyAllOracle : TokenOracle :=
  fun _ _ _ => Except.error "OAuth token request failed: 401 Unauthorized"

/-- A 300-character upstream response body. -/
def longBody : String := String.mk (List.replicate 300 'x')

/-- Whether a getAccessToken outcome is a returned token (true) or a
thrown error (false). -/
def isOkResult : Except String String → Bool
  | Except.ok _ => true
  | Except.error _ => false

/-- The gateway state at server start: no sessions, no identifiers issued. -/
def bootGw : GwState := { sessions := [], nextId := 0 }

/-- A concrete injective identifier stream for witnesses. -/
def natUuid : Nat → String := fun n => String.mk (List.replicate (n + 1) 's')

/-- Every registered session identifier was produced by the identifier
stream: the well-formedness the gateway maintains from boot. -/
def GwWF (uuid : Nat → String) (st : GwState) : Prop :=
  ∀ s ∈ st.sessions, ∃ i, i < st.nextId ∧ uuid i = s

/-- An oracle granting tokens only at the us2 endpoint. -/
def us2OnlyOracle : TokenOracle := fun u _ _ =>
  if u = "https://us2.ninjarmm.com" then
    Except.ok { access_token := "tok2", expires_in := 3600 }
  else
    Except.error "OAuth token request failed: 503 Service Unavailable"

/-! Helper lemmas about the candidate sweep and getAccessToken. -/

theorem sweepAux_all_fail (oracle : TokenOracle) (now : Int) (st : ApiState) :
    ∀ (cands tried : List String),
    (∀ u ∈ cands, ∃ e, oracle u st.clientId st.clientSecret = Except.error e) →
    sweepAux oracle now st tried cands =
      { result := Except.error (sweepFailMsg (tried ++ cands)), state := st,
        requests := cands } := by
  intro cands
  induction cands with
  | nil => intro tried _; simp [sweepAux]
  | cons c rest ih =>
      intro tried h
      obtain ⟨e, he⟩ := h c (List.mem_cons_self c rest)
      have hrest : ∀ u ∈ rest, ∃ e, oracle u st.clientId st.clientSecret = Except.error e :=
        fun u hu => h u (List.mem_cons_of_mem c hu)
      simp only [sweepAux, he]
      rw [ih (tried ++ [c]) hrest]
      simp

theorem sweepAux_first_success (oracle : TokenOracle) (now : Int) (st : ApiState)
    (pre : List String) (c : String) (post : List String) (tok : TokenResp)
    (hpre : ∀ u ∈ pre, ∃ e, oracle u st.clientId st.clientSecret = Except.error e)
    (hc : oracle c st.clientId st.clientSecret = Except.ok tok) :
    ∀ tried : List String,
    sweepAux oracle now st tried (pre ++ c :: post) =
      { result := Except.ok tok.access_token, state := pinState st c tok now,
        requests := pre ++ [c] } := by
  induction pre with
  | nil => intro tried; simp [sweepAux, hc]
  | cons u pre ih =>
      intro tried
      obtain ⟨e, he⟩ := hpre u (List.mem_cons_self u pre)
      have hpre2 : ∀ v ∈ pre, ∃ e, oracle v st.clientId st.clientSecret = Except.error e :=
        fun v hv => hpre v (List.mem_cons_of_mem u hv)
      have ih2 := ih hpre2 (tried ++ [u])
      simp only [List.cons_append, sweepAux, he, List.append_eq]
      rw [ih2]

theorem getAccessToken_unconfigured (st : ApiState) (oracle : TokenOracle)
    (cands : List String) (now : Int) (h : st.isConfigured = false) :
    getAccessToken st oracle cands now =
      { result := Except.error notConfiguredMsg, state := st, requests := [] } := by
  unfold getAccessToken
  rw [h]
  simp

theorem getAccessToken_cache_hit (st : ApiState) (oracle : TokenOracle)
    (cands : List String) (now : Int)
    (hconf : st.isConfigured = true) (hfresh : tokenCacheFresh st now = true) :
    getAccessToken st oracle cands now =
      { result := Except.ok (st.accessToken.getD ""), state := st, requests := [] } := by
  unfold getAccessToken
  rw [hconf, hfresh]
  simp

theorem getAccessToken_sweep (st : ApiState) (oracle : TokenOracle)
    (cands : List String) (now : Int)
    (hconf : st.isConfigured = true) (hcache : tokenCacheFresh st now = false)
    (hun : st.baseUrl = none ∨ st.baseUrlExplicit = false) :
    getAccessToken st oracle cands now = sweepAux oracle now st [] cands := by
  unfold getAccessToken
  rcases hun with hb | he
  · rw [hconf, hcache, hb]
    cases st.baseUrlExplicit <;> simp
  · rw [hconf, hcache, he]
    cases st.baseUrl <;> simp

theorem getAccessToken_pinned (st : ApiState) (oracle : TokenOracle)
    (cands : List String) (now : Int) (b : String)
    (hconf : st.isConfigured = true) (hcache : tokenCacheFresh st now = false)
    (hb : st.baseUrl = some b) (he : st.baseUrlExplicit = true) :
    getAccessToken st oracle cands now =
      match oracle b st.clientId st.clientSecret with
      | Except.ok tok =>
          { result := Except.ok tok.access_token,
            state := { st with accessToken := some tok.access_token,
                               tokenExpiry := some (now + tok.expires_in * 1000) },
            requests := [b] }
      | Except.error e =>
          { result := Except.error e, state := st, requests := [b] } := by
  unfold getAccessToken
  rw [hconf, hcache, hb, he]
  simp

theorem getAccessToken_preserves_pin (st : ApiState) (oracle : TokenOracle)
    (cands : List String) (now : Int) (c : String)
    (hb : st.baseUrl = some c) (he : st.baseUrlExplicit = true) :
    (getAccessToken st oracle cands now).state.baseUrl = some c ∧
    (getAccessToken st oracle cands now).state.baseUrlExplicit = true := by
  by_cases hconf : st.isConfigured = false
  · rw [getAccessToken_unconfigured st oracle cands now hconf]
    exact ⟨hb, he⟩
  · have hconf2 : st.isConfigured = true := by simpa using hconf
    by_cases hfresh : tokenCacheFresh st now = true
    · rw [getAccessToken_cache_hit st oracle cands now hconf2 hfresh]
      exact ⟨hb, he⟩
    · have hcache : tokenCacheFresh st now = false := by simpa using hfresh
      rw [getAccessToken_pinned st oracle cands now c hconf2 hcache hb he]
      cases oracle c st.clientId st.clientSecret <;> simp [hb, he]

/-- C1: while no endpoint is pinned, getAccessToken sweeps the candidate
base URLs strictly in list order; the first candidate whose token request
succeeds is pinned as the explicit endpoint and its token is cached and
returned; the pin survives every subsequent getAccessToken call, even one
whose own token request fails; and when every candidate fails, the call
fails with the error enumerating exactly the candidates tried, a string
built from the candidate list alone (the client secret is not part of its
construction, so it cannot leak into the message). -/
theorem autodetect_first_success_pins (st : ApiState) (oracle : TokenOracle)
    (pre post : List String) (c : String) (tok : TokenResp) (now : Int)
    (hconf : st.isConfigured = true)
    (hcache : tokenCacheFresh st now = false)
    (hun : st.baseUrl = none ∨ st.baseUrlExplicit = false)
    (hpre : ∀ u ∈ pre, ∃ e, oracle u st.clientId st.clientSecret = Except.error e)
    (hc : oracle c st.clientId st.clientSecret = Except.ok tok) :
    (getAccessToken st oracle (pre ++ c :: post) now =
      { result := Except.ok tok.access_token,
        state := pinState st c tok now,
        requests := pre ++ [c] })
    ∧ (∀ (st2 : ApiState) (oracle2 : TokenOracle) (cands2 : List String) (now2 : Int),
        st2.baseUrl = some c → st2.baseUrlExplicit = true →
        (getAccessToken st2 oracle2 cands2 now2).state.baseUrl = some c ∧
        (getAccessToken st2 oracle2 cands2 now2).state.baseUrlExplicit = true)
    ∧ (∀ cands : List String,
        (∀ u ∈ cands, ∃ e, oracle u st.clientId st.clientSecret = Except.error e) →
        getAccessToken st oracle cands now =
          { result := Except.error (sweepFailMsg cands), state := st,
            requests := cands }) := by
  refine ⟨?_, ?_, ?_⟩
  · rw [getAccessToken_sweep st oracle (pre ++ c :: post) now hconf hcache hun]
    exact sweepAux_first_success oracle now st pre c post tok hpre hc []
  · intro st2 oracle2 cands2 now2 hb2 he2
    exact getAccessToken_preserves_pin st2 oracle2 cands2 now2 c hb2 he2
  · intro cands hall
    rw [getAccessToken_sweep st oracle cands now hconf hcache hun]
    simpa using sweepAux_all_fail oracle now st cands [] hall

theorem autodetect_first_success_pins_witness :
    getAccessToken freshConfiguredState us2OnlyOracle
        ["https://app.ninjarmm.com", "https://us2.ninjarmm.com",
         "https://eu.ninjarmm.com"] 0 =
      { result := Except.ok "tok2",
        state := pinState freshConfiguredState "https://us2.ninjarmm.com"
          { access_token := "tok2", expires_in := 3600 } 0,
        requests := ["https://app.ninjarmm.com", "https://us2.ninjarmm.com"] } :=
  (autodetect_first_success_pins freshConfiguredState us2OnlyOracle
    ["https://app.ninjarmm.com"] ["https://eu.ninjarmm.com"]
    "https://us2.ninjarmm.com" { access_token := "tok2", expires_in := 3600 } 0
    rfl rfl (Or.inl rfl)
    (by
      intro u hu
      have : u = "https://app.ninjarmm.com" := by simpa using hu
      subst this
      exact ⟨"OAuth token request failed: 503 Service Unavailable", rfl⟩)
    rfl).1

theorem sweepAux_state_isConfigured (oracle : TokenOracle) (now : Int) (st : ApiState) :
    ∀ (cands tried : List String),
      (sweepAux oracle now st tried cands).state.isConfigured = st.isConfigured := by
  intro cands
  induction cands with
  | nil => intro tried; rfl
  | cons c rest ih =>
      intro tried
      simp only [sweepAux]
      split
      · rfl
      · exact ih (tried ++ [c])

theorem getAccessToken_state_isConfigured (st : ApiState) (oracle : TokenOracle)
    (cands : List String) (now : Int) :
    (getAccessToken st oracle cands now).state.isConfigured = st.isConfigured := by
  unfold getAccessToken
  split
  · rfl
  · split
    · rfl
    · split
      · split <;> rfl
      · exact sweepAux_state_isConfigured oracle now st cands []

theorem setBaseUrl_state_isConfigured (st : ApiState) (url : String) :
    (setBaseUrl st url).state.isConfigured = st.isConfigured := by
  simp only [setBaseUrl]
  split <;> rfl

theorem setRegion_state_isConfigured (st : ApiState) (region : String) :
    (setRegion st region).state.isConfigured = st.isConfigured := by
  unfold setRegion
  split
  · rfl
  · exact setBaseUrl_state_isConfigured st _

/-- In an unconfigured instance no token is ever cached: the constructor
leaves the cache empty and getAccessToken throws the configuration error
before touching it. -/
theorem reachable_unconfigured_no_token (st : ApiState) (h : Reachable st) :
    st.isConfigured = false → st.accessToken = none := by
  induction h with
  | ctor st h1 _ => exact fun _ => h1
  | tokenCall st oracle cands now _ ih =>
      intro hcfg
      have hstcfg : st.isConfigured = false := by
        rw [← getAccessToken_state_isConfigured st oracle cands now]
        exact hcfg
      rw [getAccessToken_unconfigured st oracle cands now hstcfg]
      exact ih hstcfg
  | setUrlCall st url _ ih =>
      intro hcfg
      have hstcfg : st.isConfigured = false := by
        rw [← setBaseUrl_state_isConfigured st url]
        exact hcfg
      simp only [setBaseUrl]
      split
      · exact ih hstcfg
      · rfl
  | setRegionCall st region _ ih =>
      intro hcfg
      have hstcfg : st.isConfigured = false := by
        rw [← setRegion_state_isConfigured st region]
        exact hcfg
      unfold setRegion
      split
      · exact ih hstcfg
      · simp only [setBaseUrl]
        split
        · exact ih hstcfg
        · rfl

theorem sweepAux_empty_requests (oracle : TokenOracle) (now : Int) (st : ApiState) :
    ∀ (cands tried : List String),
      (sweepAux oracle now st tried cands).requests = [] →
      (sweepAux oracle now st tried cands).result = Except.error (sweepFailMsg tried) := by
  intro cands
  cases cands with
  | nil => intro tried _; rfl
  | cons c rest =>
      intro tried h
      simp only [sweepAux] at h ⊢
      split at h
      · simp at h
      · simp at h

/-- C2: while a cached, nonempty token is held whose expiry lies more than
the five-minute refresh skew in the future, getAccessToken returns it
unchanged, mutates nothing and issues no network request; conversely a
cached token at or past the threshold is never served from the cache: any
call returning without a single token request while the cache is at or
past the threshold is an error, never a token.  (In a reachable state a
cached token implies the instance is configured, so the configuration
check of line 67 cannot fire first.) -/
theorem token_reuse (st : ApiState) (oracle : TokenOracle) (cands : List String)
    (now : Int) (t : String) (e : Int)
    (hreach : Reachable st)
    (ht : st.accessToken = some t) (ht2 : t ≠ "")
    (he : st.tokenExpiry = some e)
    (hnow : 0 ≤ now)
    (hfresh : now < e - 300000) :
    (getAccessToken st oracle cands now =
      { result := Except.ok t, state := st, requests := [] })
    ∧ (∀ (st2 : ApiState) (t2 : String) (e2 now2 : Int),
        st2.accessToken = some t2 → st2.tokenExpiry = some e2 →
        ¬ (now2 < e2 - 300000) →
        (getAccessToken st2 oracle cands now2).requests = [] →
        isOkResult (getAccessToken st2 oracle cands now2).result = false) := by
  constructor
  · have hconf : st.isConfigured = true := by
      cases hc : st.isConfigured
      · have := reachable_unconfigured_no_token st hreach hc
        rw [ht] at this
        cases this
      · rfl
    have hfr : tokenCacheFresh st now = true := by
      unfold tokenCacheFresh
      rw [ht, he]
      simp only [decide_eq_true_eq]
      refine ⟨ht2, by omega, hfresh⟩
    rw [getAccessToken_cache_hit st oracle cands now hconf hfr]
    rw [ht]
    rfl
  · intro st2 t2 e2 now2 ht' he' hstale hreq
    by_cases hcfg : st2.isConfigured = false
    · rw [getAccessToken_unconfigured st2 oracle cands now2 hcfg]
      rfl
    · have hcfg2 : st2.isConfigured = true := by simpa using hcfg
      have hfr : tokenCacheFresh st2 now2 = false := by
        unfold tokenCacheFresh
        rw [ht', he']
        simp only [decide_eq_false_iff_not]
        intro hcon
        exact hstale hcon.2.2
      rcases hbu : st2.baseUrl with _ | b
      · rw [getAccessToken_sweep st2 oracle cands now2 hcfg2 hfr (Or.inl hbu)] at hreq ⊢
        rw [sweepAux_empty_requests oracle now2 st2 cands [] hreq]
        rfl
      · cases hbe : st2.baseUrlExplicit
        · rw [getAccessToken_sweep st2 oracle cands now2 hcfg2 hfr (Or.inr hbe)] at hreq ⊢
          rw [sweepAux_empty_requests oracle now2 st2 cands [] hreq]
          rfl
        · have hp := getAccessToken_pinned st2 oracle cands now2 b hcfg2 hfr hbu hbe
          rw [hp] at hreq
          cases h2 : oracle b st2.clientId st2.clientSecret <;>
            rw [h2] at hreq <;> simp at hreq

theorem token_reuse_witness :
    getAccessToken
        ((getAccessToken freshConfiguredState grantAllOracle DEFAULT_CANDIDATES 0).state)
        denyAllOracle DEFAULT_CANDIDATES 60000 =
      { result := Except.ok "tok",
        state := (getAccessToken freshConfiguredState grantAllOracle DEFAULT_CANDIDATES 0).state,
        requests := [] } :=
  (token_reuse
    ((getAccessToken freshConfiguredState grantAllOracle DEFAULT_CANDIDATES 0).state)
    denyAllOracle DEFAULT_CANDIDATES 60000 "tok" 3600000
    (Reachable.tokenCall freshConfiguredState grantAllOracle DEFAULT_CANDIDATES 0
      (Reachable.ctor freshConfiguredState rfl rfl))
    rfl (by decide) rfl (by decide) (by decide)).1

/-- C3 (violated by the code): getAccessToken has no singleflight, so two
concurrent calls that both observe the empty cache before either token
request resolves each run their own candidate sweep.  With the single
candidate list containing only the app endpoint and an oracle that grants
tokens, the interleaving start(task 0), start(task 1), resume(task 0),
resume(task 1) issues two token requests to that candidate — not the one
shared attempt per exhausted candidate the specification requires — and
each caller completes from its own acquisition. -/
theorem concurrent_refresh_not_collapsed :
    (concRun grantAllOracle ["https://app.ninjarmm.com"] 0
        { shared := freshConfiguredState, tasks := [TaskPc.ready, TaskPc.ready],
          log := [] }
        [0, 1, 0, 1]).log =
      ["https://app.ninjarmm.com", "https://app.ninjarmm.com"]
    ∧ (concRun grantAllOracle ["https://app.ninjarmm.com"] 0
        { shared := freshConfiguredState, tasks := [TaskPc.ready, TaskPc.ready],
          log := [] }
        [0, 1, 0, 1]).log.count "https://app.ninjarmm.com" = 2
    ∧ (concRun grantAllOracle ["https://app.ninjarmm.com"] 0
        { shared := freshConfiguredState, tasks := [TaskPc.ready, TaskPc.ready],
          log := [] }
        [0, 1, 0, 1]).tasks =
      [TaskPc.finished (Except.ok "tok"), TaskPc.finished (Except.ok "tok")] :=
  ⟨rfl, rfl, rfl⟩

theorem REGION_MAP_lookup_known (k v : String) (h : REGION_MAP.lookup k = some v) :
    knownUrls.contains (normalizeBaseUrl v) = true := by
  simp only [REGION_MAP, List.lookup] at h
  split at h
  · injection h with h2; subst h2; decide
  · split at h
    · injection h with h2; subst h2; decide
    · split at h
      · injection h with h2; subst h2; decide
      · split at h
        · injection h with h2; subst h2; decide
        · split at h
          · injection h with h2; subst h2; decide
          · cases h

theorem setBaseUrl_ok_iff (st : ApiState) (url : String) :
    (setBaseUrl st url).result = Except.ok () ↔
      (knownUrls.contains (normalizeBaseUrl url) = true ∨
       matchesAllowedDomain (normalizeBaseUrl url) = true) := by
  simp only [setBaseUrl]
  split
  · rename_i hcond
    simp only [Bool.and_eq_true, decide_eq_true_eq] at hcond
    constructor
    · intro h
      exact absurd h (by simp)
    · intro h
      rcases h with h | h
      · rw [hcond.1] at h; cases h
      · rw [hcond.2] at h; cases h
  · rename_i hcond
    simp only [Bool.and_eq_true, decide_eq_true_eq, not_and_or] at hcond
    constructor
    · intro _
      rcases hcond with h | h
      · exact Or.inl (by simpa using h)
      · exact Or.inr (by simpa using h)
    · intro _
      rfl

/-- C4: setBaseUrl succeeds exactly when the normalized URL is one of the
known region base URLs or matches the allowed wildcard domain pattern
https://[subdomain].ninjarmm.com; on any other URL it throws without
issuing any network request and without modifying the stored endpoint,
token or expiry (the state is returned untouched); and setRegion, which
reaches setBaseUrl only through the region map, succeeds exactly on known
region keys compared case-insensitively, likewise touching nothing on
failure. -/
theorem setBaseUrl_allowlist (st : ApiState) (url : String) :
    ((setBaseUrl st url).result = Except.ok () ↔
      (knownUrls.contains (normalizeBaseUrl url) = true ∨
       matchesAllowedDomain (normalizeBaseUrl url) = true))
    ∧ (setBaseUrl st url).requests = []
    ∧ (∀ msg, (setBaseUrl st url).result = Except.error msg →
        (setBaseUrl st url).state = st)
    ∧ (∀ region : String,
        ((setRegion st region).result = Except.ok () ↔
          (REGION_MAP.lookup (strLower region)).isSome = true)
        ∧ (setRegion st region).requests = []
        ∧ (∀ msg, (setRegion st region).result = Except.error msg →
            (setRegion st region).state = st)) := by
  refine ⟨setBaseUrl_ok_iff st url, ?_, ?_, ?_⟩
  · simp only [setBaseUrl]
    split <;> rfl
  · simp only [setBaseUrl]
    split
    · intro msg _; rfl
    · intro msg h; cases h
  · intro region
    refine ⟨?_, ?_, ?_⟩
    · simp only [setRegion]
      split
      · rename_i hl
        rw [hl]
        simp
      · rename_i mapped hl
        rw [hl]
        simp only [Option.isSome_some]
        constructor
        · intro _; trivial
        · intro _
          exact (setBaseUrl_ok_iff st mapped).2
            (Or.inl (REGION_MAP_lookup_known (strLower region) mapped hl))
    · simp only [setRegion]
      split
      · rfl
      · simp only [setBaseUrl]
        split <;> rfl
    · simp only [setRegion]
      split
      · intro msg _; rfl
      · rename_i mapped hl
        intro msg h
        exfalso
        have hok := (setBaseUrl_ok_iff st mapped).2
          (Or.inl (REGION_MAP_lookup_known (strLower region) mapped hl))
        rw [h] at hok
        cases hok

theorem setBaseUrl_allowlist_witness :
    (setBaseUrl freshConfiguredState "https://evil.example.com").state = freshConfiguredState
    ∧ (setBaseUrl freshConfiguredState "https://eu.ninjarmm.com").result = Except.ok () :=
  ⟨(setBaseUrl_allowlist freshConfiguredState "https://evil.example.com").2.2.1 _ rfl,
   ((setBaseUrl_allowlist freshConfiguredState "https://eu.ninjarmm.com").1).2
     (Or.inl (by decide))⟩

theorem setBaseUrl_ok_state (st : ApiState) (url : String)
    (h : (setBaseUrl st url).result = Except.ok ()) :
    (setBaseUrl st url).state =
      { st with baseUrl := some (normalizeBaseUrl url), baseUrlExplicit := true,
                accessToken := none, tokenExpiry := none } := by
  simp only [setBaseUrl] at h ⊢
  split at h
  · exact absurd h (by simp)
  · rename_i hcond
    rw [if_neg hcond]

/-- C5: a successful setBaseUrl(X) clears the cached token and expiry and
pins the normalization of X as the explicit endpoint; the next
getAccessToken call then sends its token request to that endpoint only —
a single request to the pinned URL, never the candidate sweep and never
any other endpoint, whether that request succeeds or fails. -/
theorem setBaseUrl_invalidates_and_pins (st : ApiState) (url : String)
    (h : (setBaseUrl st url).result = Except.ok ())
    (oracle : TokenOracle) (cands : List String) (now : Int)
    (hconf : st.isConfigured = true) :
    (setBaseUrl st url).state.accessToken = none
    ∧ (setBaseUrl st url).state.tokenExpiry = none
    ∧ (setBaseUrl st url).state.baseUrl = some (normalizeBaseUrl url)
    ∧ (setBaseUrl st url).state.baseUrlExplicit = true
    ∧ (getAccessToken ((setBaseUrl st url).state) oracle cands now).requests
        = [normalizeBaseUrl url] := by
  have hst := setBaseUrl_ok_state st url h
  rw [hst]
  refine ⟨rfl, rfl, rfl, rfl, ?_⟩
  have hp := getAccessToken_pinned
    { st with baseUrl := some (normalizeBaseUrl url), baseUrlExplicit := true,
              accessToken := none, tokenExpiry := none }
    oracle cands now (normalizeBaseUrl url) hconf rfl rfl rfl
  rw [hp]
  split <;> rfl

theorem setBaseUrl_invalidates_and_pins_witness :
    (getAccessToken ((setBaseUrl freshConfiguredState "https://eu.ninjarmm.com").state)
        denyAllOracle DEFAULT_CANDIDATES 0).requests = ["https://eu.ninjarmm.com"] :=
  (setBaseUrl_invalidates_and_pins freshConfiguredState "https://eu.ninjarmm.com" rfl
    denyAllOracle DEFAULT_CANDIDATES 0 rfl).2.2.2.2

theorem handleMcp_state_cases (uuid : Nat → String) (st : GwState) (m : HttpMethod)
    (sid : Option String) (body : BodyKind) :
    (handleMcp uuid st m sid body).2 = st
    ∨ (handleMcp uuid st m sid body).2 =
        { sessions := st.sessions ++ [uuid st.nextId], nextId := st.nextId + 1 }
    ∨ ∃ s, (handleMcp uuid st m sid body).2 =
        { sessions := st.sessions.filter (fun x => x ≠ s), nextId := st.nextId } := by
  cases m <;> cases body <;> rcases sid with _ | s <;> simp only [handleMcp]
  all_goals try exact Or.inl trivial
  all_goals try exact Or.inr (Or.inl trivial)
  all_goals split
  all_goals try exact Or.inl rfl
  all_goals exact Or.inr (Or.inr ⟨s, rfl⟩)

theorem handleMcp_wf (uuid : Nat → String) (st : GwState) (m : HttpMethod)
    (sid : Option String) (body : BodyKind) (h : GwWF uuid st) :
    GwWF uuid (handleMcp uuid st m sid body).2 := by
  rcases handleMcp_state_cases uuid st m sid body with hc | hc | ⟨s, hc⟩ <;> rw [hc]
  · exact h
  · intro x hx
    rcases List.mem_append.1 hx with hx | hx
    · obtain ⟨i, hi, hu⟩ := h x hx
      exact ⟨i, Nat.lt_succ_of_lt hi, hu⟩
    · rcases List.mem_singleton.1 hx with rfl
      exact ⟨st.nextId, Nat.lt_succ_self _, rfl⟩
  · intro x hx
    exact h x (List.mem_of_mem_filter hx)

theorem handleMcp_nextId_mono (uuid : Nat → String) (st : GwState) (m : HttpMethod)
    (sid : Option String) (body : BodyKind) :
    st.nextId ≤ (handleMcp uuid st m sid body).2.nextId := by
  rcases handleMcp_state_cases uuid st m sid body with hc | hc | ⟨s, hc⟩ <;> rw [hc]
  exact Nat.le_succ _

theorem runEvents_wf (uuid : Nat → String) :
    ∀ (evs : List GwEvent) (st : GwState), GwWF uuid st →
      GwWF uuid (runEvents uuid st evs).2 := by
  intro evs
  induction evs with
  | nil => exact fun st h => h
  | cons e rest ih =>
      intro st h
      exact ih _ (handleMcp_wf uuid st e.method e.sid e.body h)

theorem handleMcp_gone_step (uuid : Nat → String) (huuid : Function.Injective uuid)
    (st : GwState) (sid : String) (i : Nat) (hi : i < st.nextId) (hu : uuid i = sid)
    (hnotin : sid ∉ st.sessions) (m : HttpMethod) (s : Option String) (b : BodyKind) :
    sid ∉ (handleMcp uuid st m s b).2.sessions
    ∧ i < (handleMcp uuid st m s b).2.nextId
    ∧ (handleMcp uuid st m s b).1 ≠ GwOutcome.created sid := by
  have hne : uuid st.nextId ≠ sid := by
    intro he
    have : st.nextId = i := huuid (he.trans hu.symm)
    omega
  refine ⟨?_, ?_, ?_⟩
  · rcases handleMcp_state_cases uuid st m s b with hc | hc | ⟨s2, hc⟩ <;> rw [hc]
    · exact hnotin
    · intro hx
      rcases List.mem_append.1 hx with hx | hx
      · exact hnotin hx
      · exact hne (List.mem_singleton.1 hx).symm
    · exact fun hx => hnotin (List.mem_of_mem_filter hx)
  · exact Nat.lt_of_lt_of_le hi (handleMcp_nextId_mono uuid st m s b)
  · cases m <;> cases b <;> rcases s with _ | s2 <;> simp only [handleMcp]
    all_goals try exact fun hc => hne (GwOutcome.created.inj hc)
    all_goals try simp
    all_goals split <;> simp

theorem runEvents_gone (uuid : Nat → String) (huuid : Function.Injective uuid)
    (sid : String) (i : Nat) (hu : uuid i = sid) :
    ∀ (evs : List GwEvent) (st : GwState), i < st.nextId → sid ∉ st.sessions →
      sid ∉ (runEvents uuid st evs).2.sessions
      ∧ i < (runEvents uuid st evs).2.nextId
      ∧ GwOutcome.created sid ∉ (runEvents uuid st evs).1 := by
  intro evs
  induction evs with
  | nil => exact fun st hi hn => ⟨hn, hi, by simp [runEvents]⟩
  | cons e rest ih =>
      intro st hi hn
      obtain ⟨h1, h2, h3⟩ :=
        handleMcp_gone_step uuid huuid st sid i hi hu hn e.method e.sid e.body
      obtain ⟨g1, g2, g3⟩ := ih (handleMcp uuid st e.method e.sid e.body).2 h2 h1
      refine ⟨g1, g2, ?_⟩
      simp only [runEvents, List.mem_cons]
      rintro (hc | hc)
      · exact h3 hc.symm
      · exact g3 hc

theorem handleMcp_unknown_sid (uuid : Nat → String) (st : GwState) (sid : String)
    (m : HttpMethod) (b2 : BodyKind) (h : sid ∉ st.sessions)
    (hm : m = HttpMethod.get ∨ m = HttpMethod.delete ∨
      (m = HttpMethod.post ∧ b2 = BodyKind.regular)) :
    (handleMcp uuid st m (some sid) b2).1 = GwOutcome.invalidSession := by
  rcases hm with rfl | rfl | ⟨rfl, rfl⟩ <;> simp [handleMcp, h]

/-- C6: tearing a session down through the DELETE path removes its
identifier from the registry and answers with the session-closed outcome;
provided the identifier stream never repeats (the freshly generated
unguessable UUIDs of the claim, modelled as injectivity), then after the
teardown — whatever requests follow — the identifier is never again in the
registry, no later request is ever answered by creating a session with
that identifier, and every later request addressed to that identifier
(GET, DELETE, or non-initialize POST; an initialize POST ignores the
header and creates a distinct fresh session) fails with the
invalid-session error. -/
theorem session_teardown_no_resurrection (uuid : Nat → String)
    (huuid : Function.Injective uuid)
    (evs0 : List GwEvent) (sid : String) (body : BodyKind)
    (hsid : sid ∈ (runEvents uuid bootGw evs0).2.sessions) :
    (handleMcp uuid (runEvents uuid bootGw evs0).2 HttpMethod.delete (some sid) body).1
      = GwOutcome.closedSession sid
    ∧ ∀ evs : List GwEvent,
        sid ∉ (runEvents uuid
          (handleMcp uuid (runEvents uuid bootGw evs0).2 HttpMethod.delete
            (some sid) body).2 evs).2.sessions
        ∧ GwOutcome.created sid ∉ (runEvents uuid
            (handleMcp uuid (runEvents uuid bootGw evs0).2 HttpMethod.delete
              (some sid) body).2 evs).1
        ∧ ∀ (m : HttpMethod) (b2 : BodyKind),
            (m = HttpMethod.get ∨ m = HttpMethod.delete ∨
              (m = HttpMethod.post ∧ b2 = BodyKind.regular)) →
            (handleMcp uuid (runEvents uuid
              (handleMcp uuid (runEvents uuid bootGw evs0).2 HttpMethod.delete
                (some sid) body).2 evs).2 m (some sid) b2).1
              = GwOutcome.invalidSession := by
  have hwfboot : GwWF uuid bootGw := by
    intro s hs
    simp [bootGw] at hs
  have hwf := runEvents_wf uuid evs0 bootGw hwfboot
  obtain ⟨i, hi, hu⟩ := hwf sid hsid
  have htd : handleMcp uuid (runEvents uuid bootGw evs0).2 HttpMethod.delete
      (some sid) body =
      (GwOutcome.closedSession sid,
       { sessions := (runEvents uuid bootGw evs0).2.sessions.filter (fun x => x ≠ sid),
         nextId := (runEvents uuid bootGw evs0).2.nextId }) := by
    simp [handleMcp, hsid]
  refine ⟨by rw [htd], ?_⟩
  intro evs
  have hnotin : sid ∉ (handleMcp uuid (runEvents uuid bootGw evs0).2 HttpMethod.delete
      (some sid) body).2.sessions := by
    rw [htd]
    intro hx
    have := List.of_mem_filter hx
    simp at this
  have hid : i < (handleMcp uuid (runEvents uuid bootGw evs0).2 HttpMethod.delete
      (some sid) body).2.nextId := by
    rw [htd]
    exact hi
  obtain ⟨g1, g2, g3⟩ := runEvents_gone uuid huuid sid i hu evs _ hid hnotin
  exact ⟨g1, g3, fun m b2 hm => handleMcp_unknown_sid uuid _ sid m b2 g1 hm⟩

theorem session_teardown_no_resurrection_witness :
    (handleMcp natUuid
      (runEvents natUuid bootGw
        [{ method := HttpMethod.post, sid := none, body := BodyKind.initMsg }]).2
      HttpMethod.delete (some "s") BodyKind.regular).1
      = GwOutcome.closedSession "s"
    ∧ (handleMcp natUuid
        (runEvents natUuid
          (handleMcp natUuid
            (runEvents natUuid bootGw
              [{ method := HttpMethod.post, sid := none, body := BodyKind.initMsg }]).2
            HttpMethod.delete (some "s") BodyKind.regular).2
          [{ method := HttpMethod.post, sid := none, body := BodyKind.initMsg }]).2
        HttpMethod.get (some "s") BodyKind.regular).1
      = GwOutcome.invalidSession := by
  have huuid : Function.Injective natUuid := by
    intro a b hab
    simp only [natUuid] at hab
    have hdata := congrArg String.data hab
    simp only at hdata
    have hlen := congrArg List.length hdata
    simpa using hlen
  have h := session_teardown_no_resurrection natUuid huuid
    [{ method := HttpMethod.post, sid := none, body := BodyKind.initMsg }]
    "s" BodyKind.regular (by decide)
  refine ⟨h.1, ?_⟩
  exact (h.2 [{ method := HttpMethod.post, sid := none, body := BodyKind.initMsg }]).2.2
    HttpMethod.get BodyKind.regular (Or.inl rfl)

/-- C7: a POST whose parsed body is an initialize request always creates
and registers a fresh session — the outcome is identical for every value
of the session-identifier header, which is ignored; a POST of any other
parsed message whose session header is missing, or names an identifier
not in the registry, is answered with the invalid-session client error
with the registry unchanged — no session handler is invoked and no
session is created implicitly. -/
theorem gateway_dispatch_rules (uuid : Nat → String) (st : GwState) :
    (∀ sid : Option String,
        handleMcp uuid st HttpMethod.post sid BodyKind.initMsg =
          (GwOutcome.created (uuid st.nextId),
           { sessions := st.sessions ++ [uuid st.nextId], nextId := st.nextId + 1 }))
    ∧ (handleMcp uuid st HttpMethod.post none BodyKind.regular =
        (GwOutcome.invalidSession, st))
    ∧ (∀ s : String, s ∉ st.sessions →
        handleMcp uuid st HttpMethod.post (some s) BodyKind.regular =
          (GwOutcome.invalidSession, st)) := by
  refine ⟨fun sid => rfl, rfl, ?_⟩
  intro s hs
  simp only [handleMcp]
  rw [if_neg hs]

theorem gateway_dispatch_rules_witness :
    handleMcp natUuid bootGw HttpMethod.post (some "ghost") BodyKind.regular
      = (GwOutcome.invalidSession, bootGw)
    ∧ handleMcp natUuid bootGw HttpMethod.post (some "ghost") BodyKind.initMsg
      = (GwOutcome.created "s", { sessions := ["s"], nextId := 1 }) :=
  ⟨(gateway_dispatch_rules natUuid bootGw).2.2 "ghost" (by simp [bootGw]),
   (gateway_dispatch_rules natUuid bootGw).1 (some "ghost")⟩

/-- C8: a 2xx upstream response whose body is empty or whitespace-only
yields the canonical success marker, as does one whose body the JSON
parser rejects; a 2xx response never yields the thrown
API-request-failed error for any parser and body; and a 204 response to a
DELETE yields the marker for every parser and every body — the body is
not consulted at all on that branch. -/
theorem response_empty_body_tolerance {α : Type} (parse : String → Option α)
    (method statusText body : String) (status : Nat)
    (hok : 200 ≤ status ∧ status < 300) :
    ((strTrim body).length = 0 →
      handleResponse parse method status statusText body = ApiResult.successMarker)
    ∧ (parse body = none →
      handleResponse parse method status statusText body = ApiResult.successMarker)
    ∧ (∀ msg, handleResponse parse method status statusText body ≠ ApiResult.failed msg)
    ∧ (∀ (β : Type) (parse2 : String → Option β) (body2 : String),
        handleResponse parse2 "DELETE" 204 statusText body2 = ApiResult.successMarker) := by
  refine ⟨?_, ?_, ?_, ?_⟩
  · intro htrim
    simp only [handleResponse, if_neg (not_not_intro hok)]
    split
    · rfl
    · simp [htrim]
  · intro hparse
    simp only [handleResponse, if_neg (not_not_intro hok)]
    split
    · rfl
    · split
      · rfl
      · simp [hparse]
  · intro msg
    simp only [handleResponse, if_neg (not_not_intro hok)]
    split
    · simp
    · split
      · simp
      · split <;> simp
  · intro β parse2 body2
    rfl

theorem response_empty_body_tolerance_witness :
    handleResponse (fun _ => (none : Option Unit)) "GET" 200 "OK" "  " =
      ApiResult.successMarker
    ∧ handleResponse (fun _ => (none : Option Unit)) "GET" 200 "OK" "not json" =
      ApiResult.successMarker
    ∧ handleResponse (fun _ => (none : Option Unit)) "DELETE" 204 "No Content" "junk" =
      ApiResult.successMarker :=
  ⟨(response_empty_body_tolerance (fun _ => (none : Option Unit)) "GET" "OK" "  " 200
      (by decide)).1 (by decide),
   (response_empty_body_tolerance (fun _ => (none : Option Unit)) "GET" "OK" "not json" 200
      (by decide)).2.1 rfl,
   (response_empty_body_tolerance (fun _ => (none : Option Unit)) "GET" "No Content" "x" 204
      (by decide)).2.2.2 Unit (fun _ => none) "junk"⟩

set_option maxRecDepth 4000 in
/-- C9 counterexample: on a 500 response with a 300-character body the
thrown error message is the fixed prefix followed by the entire response
body — 348 characters in all — so the body it carries is complete, not a
truncated form. -/
theorem response_error_untruncated_cex :
    handleResponse (fun _ => (none : Option Unit)) "GET" 500 "Internal Server Error"
        longBody =
      ApiResult.failed ("API request failed: 500 Internal Server Error - " ++ longBody)
    ∧ longBody.length = 300
    ∧ ("API request failed: 500 Internal Server Error - " ++ longBody).length = 348 :=
  ⟨rfl, rfl, rfl⟩

/-- C9 as amended: a non-2xx upstream response makes the call fail with
the API-request-failed error carrying the status code, the status text
and the complete (untruncated) response body. -/
theorem response_upstream_error {α : Type} (parse : String → Option α)
    (method statusText body : String) (status : Nat)
    (hbad : ¬ (200 ≤ status ∧ status < 300)) :
    handleResponse parse method status statusText body =
      ApiResult.failed
        ("API request failed: " ++ toString status ++ " " ++ statusText ++
         " - " ++ body) := by
  simp only [handleResponse, if_pos hbad]

theorem response_upstream_error_witness :
    handleResponse (fun _ => (none : Option Unit)) "GET" 404 "Not Found" "missing" =
      ApiResult.failed ("API request failed: 404 Not Found - missing") :=
  response_upstream_error (fun _ => (none : Option Unit)) "GET" "Not Found" "missing" 404
    (by decide)

theorem tool_on_obj (idArg : JsVal) (v u : JsVal) (now : Int)
    (hid : isNumberType idArg = true) :
    setDeviceMaintenanceTool idArg (JsVal.str "ON") (DurationArg.obj false v u) now =
      (match v with
       | JsVal.num q =>
          if q ≤ 0 then
            ToolOutcome.invalidParams "Duration value must be a positive number"
          else
            match MAINTENANCE_UNIT_SECONDS (jsUnitUpper u) with
            | none => ToolOutcome.invalidParams
                "Duration unit must be one of MINUTES, HOURS, DAYS, or WEEKS"
            | some perUnit =>
                if roundJs (q * (perUnit : ℚ)) < 15 * 60 then
                  ToolOutcome.invalidParams
                    "Maintenance windows must be at least 15 minutes long"
                else
                  runMaintenanceApi idArg "ON"
                    (some (MaintenanceWindowSelection.windowSel q (jsUnitUpper u)
                      (roundJs (q * (perUnit : ℚ))))) now
       | _ => ToolOutcome.invalidParams "Duration value must be a positive number") := by
  simp [setDeviceMaintenanceTool, hid]

theorem tool_off (idArg : JsVal) (d : DurationArg) (now : Int)
    (hid : isNumberType idArg = true) :
    setDeviceMaintenanceTool idArg (JsVal.str "OFF") d now =
      ToolOutcome.apiCall (DeviceMaintenanceCall.deleteMaintenance idArg) := by
  simp [setDeviceMaintenanceTool, hid, runMaintenanceApi, setDeviceMaintenance]

/-- C10: with mode ON and a non-permanent duration object the
set_device_maintenance tool answers with an invalid-params error — and so
issues no upstream call — exactly unless duration.value is a finite
positive number, duration.unit compared case-insensitively is one of
MINUTES, HOURS, DAYS or WEEKS, and the half-up-rounded window length
value times unit-seconds is at least 900 seconds; when all checks pass it
issues the PUT of the maintenance window; and with mode OFF every
duration argument is ignored and the DELETE of the device's maintenance
window is issued instead. -/
theorem set_device_maintenance_validation (idArg : JsVal) (v u : JsVal)
    (d : DurationArg) (now : Int) (hid : isNumberType idArg = true) :
    ((∃ msg, setDeviceMaintenanceTool idArg (JsVal.str "ON")
        (DurationArg.obj false v u) now = ToolOutcome.invalidParams msg)
      ↔ ¬ ∃ (q : ℚ) (secs : Int), v = JsVal.num q ∧ 0 < q ∧
          MAINTENANCE_UNIT_SECONDS (jsUnitUpper u) = some secs ∧
          900 ≤ roundJs (q * (secs : ℚ)))
    ∧ (∀ (q : ℚ) (secs : Int), v = JsVal.num q → 0 < q →
        MAINTENANCE_UNIT_SECONDS (jsUnitUpper u) = some secs →
        900 ≤ roundJs (q * (secs : ℚ)) →
        setDeviceMaintenanceTool idArg (JsVal.str "ON")
            (DurationArg.obj false v u) now =
          ToolOutcome.apiCall (DeviceMaintenanceCall.putMaintenance idArg
            ["ALERTS", "PATCHING", "AVSCANS", "TASKS"]
            (Int.fdiv (now + 5000) 1000)
            (some (Int.fdiv (now + 5000) 1000 + roundJs (q * (secs : ℚ))))
            ("Maintenance mode enabled via API for " ++ toString q ++ " "
              ++ strLower (jsUnitUpper u))))
    ∧ setDeviceMaintenanceTool idArg (JsVal.str "OFF") d now =
        ToolOutcome.apiCall (DeviceMaintenanceCall.deleteMaintenance idArg) := by
  have haccept : ∀ (q : ℚ) (secs : Int), v = JsVal.num q → 0 < q →
      MAINTENANCE_UNIT_SECONDS (jsUnitUpper u) = some secs →
      900 ≤ roundJs (q * (secs : ℚ)) →
      setDeviceMaintenanceTool idArg (JsVal.str "ON")
          (DurationArg.obj false v u) now =
        ToolOutcome.apiCall (DeviceMaintenanceCall.putMaintenance idArg
          ["ALERTS", "PATCHING", "AVSCANS", "TASKS"]
          (Int.fdiv (now + 5000) 1000)
          (some (Int.fdiv (now + 5000) 1000 + roundJs (q * (secs : ℚ))))
          ("Maintenance mode enabled via API for " ++ toString q ++ " "
            ++ strLower (jsUnitUpper u))) := by
    intro q secs hv hq hu h900
    subst hv
    rw [tool_on_obj idArg (JsVal.num q) u now hid]
    simp only [hu]
    rw [if_neg (not_le.mpr hq), if_neg (by omega)]
    simp [runMaintenanceApi, setDeviceMaintenance, maintenanceReason]
  refine ⟨⟨?_, ?_⟩, haccept, tool_off idArg d now hid⟩
  · rintro ⟨msg, hmsg⟩ ⟨q, secs, hv, hq, hu, h900⟩
    rw [haccept q secs hv hq hu h900] at hmsg
    cases hmsg
  · intro hnot
    rw [tool_on_obj idArg v u now hid]
    cases v with
    | num q =>
        by_cases hq : q ≤ 0
        · refine ⟨"Duration value must be a positive number", ?_⟩
          simp [hq]
        · rcases hu : MAINTENANCE_UNIT_SECONDS (jsUnitUpper u) with _ | secs
          · refine ⟨"Duration unit must be one of MINUTES, HOURS, DAYS, or WEEKS", ?_⟩
            simp [hq, hu]
          · by_cases h900 : roundJs (q * (secs : ℚ)) < 15 * 60
            · refine ⟨"Maintenance windows must be at least 15 minutes long", ?_⟩
              simp [hq, hu, h900]
              intro hcon
              exact absurd hcon (by omega)
            · exact absurd ⟨q, secs, rfl, not_le.mp hq, hu, by omega⟩ hnot
    | nan => exact ⟨_, rfl⟩
    | posInf => exact ⟨_, rfl⟩
    | negInf => exact ⟨_, rfl⟩
    | str s => exact ⟨_, rfl⟩
    | otherJs => exact ⟨_, rfl⟩

theorem set_device_maintenance_validation_witness :
    setDeviceMaintenanceTool (JsVal.num 7) (JsVal.str "ON")
        (DurationArg.obj false (JsVal.num 30) (JsVal.str "minutes")) 0 =
      ToolOutcome.apiCall (DeviceMaintenanceCall.putMaintenance (JsVal.num 7)
        ["ALERTS", "PATCHING", "AVSCANS", "TASKS"]
        (Int.fdiv (0 + 5000) 1000)
        (some (Int.fdiv (0 + 5000) 1000 + roundJs ((30 : ℚ) * (((60 : Int)) : ℚ))))
        ("Maintenance mode enabled via API for " ++ toString (30 : ℚ) ++ " "
          ++ strLower (jsUnitUpper (JsVal.str "minutes"))))
    ∧ setDeviceMaintenanceTool (JsVal.num 7) (JsVal.str "OFF")
        (DurationArg.obj false (JsVal.num 30) (JsVal.str "minutes")) 0 =
      ToolOutcome.apiCall (DeviceMaintenanceCall.deleteMaintenance (JsVal.num 7)) :=
  ⟨(set_device_maintenance_validation (JsVal.num 7) (JsVal.num 30)
      (JsVal.str "minutes") (DurationArg.obj false (JsVal.num 30) (JsVal.str "minutes"))
      0 rfl).2.1 30 60 rfl (by norm_num) rfl (by norm_num [roundJs]),
   (set_device_maintenance_validation (JsVal.num 7) (JsVal.num 30)
      (JsVal.str "minutes") (DurationArg.obj false (JsVal.num 30) (JsVal.str "minutes"))
      0 rfl).2.2⟩

end NinjaOne
